import Mathlib

/-!
Shallow embedding of the NAT (non-autoregressive transformer) model core
from `src/model.py`, together with theorems settling the specification
claims about it.  Tensors are embedded as Lists (one example; batches as
lists of per-example lists), machine floats as exact rationals, and the
pretrained BERT encoder as an abstract function parameter.
-/

namespace NATModel

/-- Embeds `NAT.create_mask_and_position_ids` (src/model.py:104-112) for a
single example: `num_tokens` is the token count of the example, `max_len` the
sequence length, `offset` the optional position offset.  Returns the 0/1
validity mask and the position-id row.  In the source,
`mask = (base_position_matrix < num_tokens)` and
`position_ids = (base_position_matrix + offset) * mask`. -/
def create_mask_and_position_ids (num_tokens max_len : ℕ) (offset : Option ℕ) :
    List ℕ × List ℕ :=
  let base_position_matrix := List.range max_len
  let mask := base_position_matrix.map (fun p => if p < num_tokens then 1 else 0)
  let based := match offset with
    | some o => base_position_matrix.map (fun p => p + o)
    | none => base_position_matrix
  let position_ids := List.zipWith (· * ·) based mask
  (mask, position_ids)

/-- Embeds `NAT.create_attention_mask` (src/model.py:114-126) for a single
example, as a function of the flat joint indices `i, j` into the
concatenated source+target sequence.  In the source,
`weight = cat(ones_like(source_mask), zeros_like(target_mask))`,
`mask = cat(source_mask, target_mask) == 1`, and the result is
`((from_weight == 0) | (to_weight == 1)) & mask_i & mask_j`. -/
def create_attention_mask (source_mask target_mask : List ℕ) (i j : ℕ) : ℕ :=
  if ((source_mask.map (fun _ => (1 : ℕ)) ++ target_mask.map (fun _ => (0 : ℕ))).getD i 1 = 0 ∨
      (source_mask.map (fun _ => (1 : ℕ)) ++ target_mask.map (fun _ => (0 : ℕ))).getD j 0 = 1) ∧
     (source_mask ++ target_mask).getD i 0 = 1 ∧ (source_mask ++ target_mask).getD j 0 = 1
  then 1 else 0

lemma length_fst_create_mask (c L : ℕ) (o : Option ℕ) :
    (create_mask_and_position_ids c L o).1.length = L := by
  simp [create_mask_and_position_ids]

lemma length_snd_create_mask (c L : ℕ) (o : Option ℕ) :
    (create_mask_and_position_ids c L o).2.length = L := by
  cases o <;> simp [create_mask_and_position_ids]

lemma getD_fst_create_mask (c L : ℕ) (o : Option ℕ) (p : ℕ) (hp : p < L) :
    (create_mask_and_position_ids c L o).1.getD p 0 = if p < c then 1 else 0 := by
  have h1 : (create_mask_and_position_ids c L o).1 =
      (List.range L).map (fun q => if q < c then 1 else 0) := by
    cases o <;> rfl
  rw [h1]
  rw [List.getD_eq_getElem _ _ (by simpa using hp)]
  simp

lemma getD_snd_create_mask (c L o : ℕ) (p : ℕ) (hp : p < L) :
    (create_mask_and_position_ids c L (some o)).2.getD p 0 =
      if p < c then p + o else 0 := by
  have h2 : (create_mask_and_position_ids c L (some o)).2 =
      List.zipWith (· * ·) ((List.range L).map (fun q => q + o))
        ((List.range L).map (fun q => if q < c then 1 else 0)) := rfl
  rw [h2]
  have hlen : p < (List.zipWith (· * ·) ((List.range L).map (fun q => q + o))
      ((List.range L).map (fun q => if q < c then 1 else 0))).length := by
    simpa using hp
  rw [List.getD_eq_getElem _ _ hlen]
  rw [List.getElem_zipWith]
  simp only [List.getElem_map, List.getElem_range]
  by_cases h : p < c <;> simp [h]

/-- C4: For every per-example token count `c`, maximum length `L` and offset
`o`, `create_mask_and_position_ids` marks position `p` valid iff `p < c`
(so `c ≥ L` marks every position valid), and the position id is `p + o` at
valid positions and `0` at invalid ones, for all `p < L`. -/
theorem create_mask_and_position_ids_contract (c L o p : ℕ) (hp : p < L) :
    ((create_mask_and_position_ids c L (some o)).1.getD p 0 = 1 ↔ p < c) ∧
    ((create_mask_and_position_ids c L (some o)).1.getD p 0 = 0 ↔ ¬ p < c) ∧
    (create_mask_and_position_ids c L (some o)).2.getD p 0 =
      (if p < c then p + o else 0) ∧
    (L ≤ c → (create_mask_and_position_ids c L (some o)).1.getD p 0 = 1) := by
  rw [getD_fst_create_mask c L (some o) p hp, getD_snd_create_mask c L o p hp]
  by_cases h : p < c
  · simp [h]
  · simp [h]
    omega

/-- Closed-form witness for `create_mask_and_position_ids_contract`. -/
theorem create_mask_and_position_ids_contract_witness :
    ((create_mask_and_position_ids 2 4 (some 5)).1.getD 1 0 = 1 ↔ 1 < 2) ∧
    ((create_mask_and_position_ids 2 4 (some 5)).1.getD 1 0 = 0 ↔ ¬ 1 < 2) ∧
    (create_mask_and_position_ids 2 4 (some 5)).2.getD 1 0 =
      (if 1 < 2 then 1 + 5 else 0) ∧
    (4 ≤ 2 → (create_mask_and_position_ids 2 4 (some 5)).1.getD 1 0 = 1) :=
  create_mask_and_position_ids_contract 2 4 5 1 (by decide)

lemma attention_weight_getD (source_mask target_mask : List ℕ) (i : ℕ)
    (hi : i < source_mask.length + target_mask.length) (d : ℕ) :
    (source_mask.map (fun _ => (1 : ℕ)) ++ target_mask.map (fun _ => (0 : ℕ))).getD i d =
      if i < source_mask.length then 1 else 0 := by
  by_cases h : i < source_mask.length
  · have hlt : i < (source_mask.map (fun _ => (1 : ℕ)) ++
        target_mask.map (fun _ => (0 : ℕ))).length := by simpa using hi
    rw [List.getD_eq_getElem _ _ hlt]
    rw [List.getElem_append_left (by simpa using h)]
    simp [h]
  · have hlen : i < (source_mask.map (fun _ => (1 : ℕ)) ++
        target_mask.map (fun _ => (0 : ℕ))).length := by simpa using hi
    rw [List.getD_eq_getElem _ _ hlen]
    rw [List.getElem_append_right (by simpa using h)]
    simp [h]

/-- C1: the attention-visibility entry of `create_attention_mask` is `0`
exactly when (`i` is a source position and `j` is a target position) or
either flat position is invalid; every other pair of valid positions is
visible (`1`).  Source positions are the flat indices `< source length`,
validity of a flat position is the corresponding entry of the concatenated
validity masks. -/
theorem create_attention_mask_invariant (source_mask target_mask : List ℕ)
    (i j : ℕ) (hi : i < source_mask.length + target_mask.length)
    (hj : j < source_mask.length + target_mask.length) :
    (create_attention_mask source_mask target_mask i j = 0 ↔
      ((i < source_mask.length ∧ source_mask.length ≤ j) ∨
        (source_mask ++ target_mask).getD i 0 ≠ 1 ∨
        (source_mask ++ target_mask).getD j 0 ≠ 1)) ∧
    (create_attention_mask source_mask target_mask i j = 1 ↔
      (¬ (i < source_mask.length ∧ source_mask.length ≤ j) ∧
        (source_mask ++ target_mask).getD i 0 = 1 ∧
        (source_mask ++ target_mask).getD j 0 = 1)) := by
  unfold create_attention_mask
  rw [attention_weight_getD source_mask target_mask i hi 1,
      attention_weight_getD source_mask target_mask j hj 0]
  by_cases hsi : i < source_mask.length <;> by_cases hsj : j < source_mask.length <;>
    by_cases hvi : (source_mask ++ target_mask).getD i 0 = 1 <;>
    by_cases hvj : (source_mask ++ target_mask).getD j 0 = 1 <;>
    simp [hsi, hsj, hvi, hvj] <;> omega

/-- Closed-form witness for `create_attention_mask_invariant`: source mask
`[1,1,0]`, target mask `[1,0]`, a source→target pair. -/
theorem create_attention_mask_invariant_witness :
    (create_attention_mask [1,1,0] [1,0] 0 3 = 0 ↔
      ((0 < ([1,1,0] : List ℕ).length ∧ ([1,1,0] : List ℕ).length ≤ 3) ∨
        (([1,1,0] : List ℕ) ++ [1,0]).getD 0 0 ≠ 1 ∨
        (([1,1,0] : List ℕ) ++ [1,0]).getD 3 0 ≠ 1)) ∧
    (create_attention_mask [1,1,0] [1,0] 0 3 = 1 ↔
      (¬ (0 < ([1,1,0] : List ℕ).length ∧ ([1,1,0] : List ℕ).length ≤ 3) ∧
        (([1,1,0] : List ℕ) ++ [1,0]).getD 0 0 = 1 ∧
        (([1,1,0] : List ℕ) ++ [1,0]).getD 3 0 = 1)) :=
  create_attention_mask_invariant [1,1,0] [1,0] 0 3 (by decide) (by decide)

/-- Embeds `loss_mask_and_normalize` (src/model.py:206-210) over a batch:
`loss` and `mask` are the per-example rows of the `[B, T]` tensors.  In the
source, `loss = loss * mask`, `denominator = torch.sum(mask) + 1e-5`
(a sum over the WHOLE tensor), and the result is `(loss / denominator).sum()`
(again over the whole tensor). -/
def loss_mask_and_normalize (loss mask : List (List ℚ)) : ℚ :=
  ((List.zipWith (fun lr mr => List.zipWith (· * ·) lr mr) loss mask).map
    (fun r => (r.map (fun x => x / ((mask.map List.sum).sum + 1 / 100000))).sum)).sum

/-- Modelled from the words of the spec for claim C2: per-example normalization,
the masked loss of each example divided by the valid count of that same example plus
epsilon, then summed across the batch.  To be compared with
`loss_mask_and_normalize`, which embeds the source. -/
def loss_mask_and_normalize_per_example (loss mask : List (List ℚ)) : ℚ :=
  (List.zipWith
    (fun lr mr => (List.zipWith (· * ·) lr mr).sum / (mr.sum + 1 / 100000))
    loss mask).sum

lemma sum_map_div (r : List ℚ) (d : ℚ) :
    (r.map (fun x => x / d)).sum = r.sum / d := by
  induction r with
  | nil => simp
  | cons a t ih => simp [ih, add_div]

/-- The result of `loss_mask_and_normalize` is a single global ratio: the
masked loss summed over the whole batch, divided by the valid-position
count of the whole batch plus epsilon. -/
lemma loss_mask_and_normalize_global (loss mask : List (List ℚ)) :
    loss_mask_and_normalize loss mask =
      ((List.zipWith (fun lr mr => List.zipWith (· * ·) lr mr) loss mask).map
        List.sum).sum / ((mask.map List.sum).sum + 1 / 100000) := by
  unfold loss_mask_and_normalize
  generalize (mask.map List.sum).sum + 1 / 100000 = d
  generalize List.zipWith (fun lr mr => List.zipWith (· * ·) lr mr) loss mask = rows
  induction rows with
  | nil => simp
  | cons r t ih =>
    rw [List.map_cons, List.sum_cons, ih, List.map_cons, List.sum_cons,
      sum_map_div, add_div]

/-- C2 counterexample: a two-example batch with one valid position in the
first example and two in the second, unit losses at valid positions.  The
source normalization (`3 / (3 + 1e-5)`) differs from the spec-modelled
per-example normalization (`1 / (1 + 1e-5) + 2 / (2 + 1e-5)`). -/
theorem loss_normalize_not_per_example :
    loss_mask_and_normalize [[1, 0], [1, 1]] [[1, 0], [1, 1]] ≠
      loss_mask_and_normalize_per_example [[1, 0], [1, 1]] [[1, 0], [1, 1]] := by
  norm_num [loss_mask_and_normalize, loss_mask_and_normalize_per_example]

/-- C2 (amended): the training token loss is normalized globally, not
per-example — the masked per-position losses of the whole batch are summed
and divided once by the total valid-position count of the batch plus epsilon. -/
theorem loss_normalize_is_global (loss mask : List (List ℚ)) :
    loss_mask_and_normalize loss mask =
      ((List.zipWith (fun lr mr => List.zipWith (· * ·) lr mr) loss mask).map
        List.sum).sum / ((mask.map List.sum).sum + 1 / 100000) :=
  loss_mask_and_normalize_global loss mask

lemma zipWith_mul_sum_zero (lr mr : List ℚ) (h : ∀ x ∈ mr, x = 0) :
    (List.zipWith (· * ·) lr mr).sum = 0 := by
  induction lr generalizing mr with
  | nil => simp
  | cons a t ih =>
    cases mr with
    | nil => simp
    | cons b s =>
      have hb : b = 0 := h b (by simp)
      have hs : ∀ x ∈ s, x = 0 := fun x hx => h x (by simp [hx])
      simp [hb, ih s hs]

lemma masked_rows_sum_zero (loss mask : List (List ℚ))
    (h : ∀ r ∈ mask, ∀ x ∈ r, x = 0) :
    ((List.zipWith (fun lr mr => List.zipWith (· * ·) lr mr) loss mask).map
      List.sum).sum = 0 := by
  induction loss generalizing mask with
  | nil => simp
  | cons lr lt ih =>
    cases mask with
    | nil => simp
    | cons mr mt =>
      have h1 : ∀ x ∈ mr, x = 0 := h mr (by simp)
      have h2 : ∀ r ∈ mt, ∀ x ∈ r, x = 0 := fun r hr => h r (by simp [hr])
      simp [zipWith_mul_sum_zero lr mr h1, ih mt h2]

/-- C7: on an input whose target validity mask has zero valid positions
(every mask entry is 0), the normalized token loss is exactly 0 — the
epsilon `1e-5` keeps the denominator nonzero while the masked numerator
vanishes. -/
theorem loss_normalize_zero_mask (loss mask : List (List ℚ))
    (h : ∀ r ∈ mask, ∀ x ∈ r, x = 0) :
    loss_mask_and_normalize loss mask = 0 := by
  rw [loss_mask_and_normalize_global, masked_rows_sum_zero loss mask h, zero_div]

/-- Closed-form witness for `loss_normalize_zero_mask`. -/
theorem loss_normalize_zero_mask_witness :
    loss_mask_and_normalize [[5, 7], [3, 4]] [[0, 0], [0, 0]] = 0 :=
  loss_normalize_zero_mask [[5, 7], [3, 4]] [[0, 0], [0, 0]] (by decide)

/-- Embeds the construction of one row of `model_prob` in
`LabelSmoothingLoss` (src/model.py:44-63): `one_hot` is a length-`V` vector
filled with `smoothing_value = label_smoothing / (tgt_vocab_size - 2)` and
zeroed at `ignore_index`; `scatter_` writes `confidence = 1 - label_smoothing`
at the target index of the row; `masked_fill_` zeroes the whole row when the
target equals the ignore index. -/
def model_prob_row (label_smoothing : ℚ) (tgt_vocab_size ignore_index target : ℕ) :
    List ℚ :=
  if target = ignore_index then List.replicate tgt_vocab_size 0
  else ((List.replicate tgt_vocab_size
      (label_smoothing / ((tgt_vocab_size : ℚ) - 2))).set ignore_index 0).set
    target (1 - label_smoothing)

lemma sum_set_rat (l : List ℚ) (i : ℕ) (x : ℚ) (h : i < l.length) :
    (l.set i x).sum = l.sum - l.getD i 0 + x := by
  induction l generalizing i with
  | nil => simp at h
  | cons a t ih =>
    cases i with
    | zero => simp; ring
    | succ j =>
      have hj : j < t.length := by simpa using h
      simp [ih j hj]
      ring

lemma getD_set_self (l : List ℚ) (i : ℕ) (x : ℚ) (h : i < l.length) :
    (l.set i x).getD i 0 = x := by
  rw [List.getD_eq_getElem _ _ (by simpa using h)]
  simp

lemma getD_set_ne (l : List ℚ) (i j : ℕ) (x : ℚ) (hne : i ≠ j) (hj : j < l.length) :
    (l.set i x).getD j 0 = l.getD j 0 := by
  rw [List.getD_eq_getElem _ _ (by simpa using hj), List.getD_eq_getElem _ _ hj]
  exact List.getElem_set_ne hne _

lemma getD_replicate_rat (n i : ℕ) (x : ℚ) (h : i < n) :
    (List.replicate n x).getD i 0 = x := by
  rw [List.getD_eq_getElem _ _ (by simpa using h)]
  simp

/-- C5: a `model_prob` row whose label is not the ignore index carries mass
`1 - smoothing` at the label, `smoothing / (V - 2)` at every other
non-ignored vocabulary entry and `0` at the ignore index, and sums exactly
to 1; a row whose label equals the ignore index is all zeros and sums to 0. -/
theorem model_prob_row_sums (s : ℚ) (V ig t : ℕ)
    (hV : 3 ≤ V) (ht : t < V) (hig : ig < V) :
    (t ≠ ig →
      (model_prob_row s V ig t).sum = 1 ∧
      (model_prob_row s V ig t).getD t 0 = 1 - s ∧
      (model_prob_row s V ig t).getD ig 0 = 0 ∧
      ∀ k, k < V → k ≠ t → k ≠ ig →
        (model_prob_row s V ig t).getD k 0 = s / ((V : ℚ) - 2)) ∧
    (t = ig →
      model_prob_row s V ig t = List.replicate V 0 ∧
      (model_prob_row s V ig t).sum = 0) := by
  constructor
  · intro hne
    have hdef : model_prob_row s V ig t =
        ((List.replicate V (s / ((V : ℚ) - 2))).set ig 0).set t (1 - s) := by
      simp [model_prob_row, hne]
    have hVQ : ((V : ℚ) - 2) ≠ 0 := by
      have : (3 : ℚ) ≤ (V : ℚ) := by exact_mod_cast hV
      linarith
    have hig_len : ig < (List.replicate V (s / ((V : ℚ) - 2))).length := by
      simpa using hig
    have ht_len : t < ((List.replicate V (s / ((V : ℚ) - 2))).set ig 0).length := by
      simpa using ht
    refine ⟨?_, ?_, ?_, ?_⟩
    · rw [hdef, sum_set_rat _ _ _ ht_len, sum_set_rat _ _ _ hig_len]
      rw [getD_set_ne _ _ _ _ (fun h => hne h.symm) (by simpa using ht)]
      rw [getD_replicate_rat _ _ _ ht, getD_replicate_rat _ _ _ hig]
      rw [List.sum_replicate, nsmul_eq_mul]
      have hV2 : (2 : ℚ) ≤ (V : ℚ) - 1 := by
        have : (3 : ℚ) ≤ (V : ℚ) := by exact_mod_cast hV
        linarith
      field_simp
      ring
    · rw [hdef, getD_set_self _ _ _ ht_len]
    · rw [hdef, getD_set_ne _ _ _ _ hne (by simpa using hig),
        getD_set_self _ _ _ hig_len]
    · intro k hk hkt hkig
      rw [hdef, getD_set_ne _ _ _ _ (fun h => hkt h.symm) (by simpa using hk),
        getD_set_ne _ _ _ _ (fun h => hkig h.symm) (by simpa using hk),
        getD_replicate_rat _ _ _ hk]
  · intro heq
    constructor
    · simp [model_prob_row, heq]
    · simp [model_prob_row, heq]

/-- Closed-form witness for `model_prob_row_sums`:
vocabulary size 5, ignore index 0, label 2, smoothing 1/10. -/
theorem model_prob_row_sums_witness :
    ((2 : ℕ) ≠ 0 →
      (model_prob_row (1/10) 5 0 2).sum = 1 ∧
      (model_prob_row (1/10) 5 0 2).getD 2 0 = 1 - 1/10 ∧
      (model_prob_row (1/10) 5 0 2).getD 0 0 = 0 ∧
      ∀ k, k < 5 → k ≠ 2 → k ≠ 0 →
        (model_prob_row (1/10) 5 0 2).getD k 0 = (1/10) / ((5 : ℚ) - 2)) ∧
    ((2 : ℕ) = 0 →
      model_prob_row (1/10) 5 0 2 = List.replicate 5 0 ∧
      (model_prob_row (1/10) 5 0 2).sum = 0) :=
  model_prob_row_sums (1/10) 5 0 2 (by decide) (by decide) (by decide)

/-- Embeds the decode-time length clamping of `NAT.forward_decode`
(src/model.py:300-302): after `length_out = length_out.max(-1)[1]`
(argmax indices), entries `> 48` are set to `48`, then entries `< 7` are
set to `7`. -/
def clamp_length (x : ℕ) : ℕ :=
  if (if 48 < x then 48 else x) < 7 then 7 else (if 48 < x then 48 else x)

/-- The batch of clamped decode lengths from the raw argmax values. -/
def decode_lengths (raw_argmax : List ℕ) : List ℕ := raw_argmax.map clamp_length

/-- C6: with no caller-supplied length, the decoded target length is the
length-distribution argmax clamped to `[7, 48]`; in particular raw argmax
values 3 and 60 clamp to 7 and 48. -/
theorem decode_lengths_clamp :
    decode_lengths [3, 60] = [7, 48] ∧
    ∀ x : ℕ, clamp_length x = min (max x 7) 48 := by
  constructor
  · decide
  · intro x
    unfold clamp_length
    split_ifs <;> omega

/-- Embeds the final padding step of `NAT.forward_decode`
(src/model.py:313-336) for one example: `prediction_tokens` holds the
argmax vocabulary ids over the `target_len` target positions,
`pseudo_mask p = p < length_out` for this example, and
`prediction_tokens[~pseudo_mask] = pad_word_id`. -/
def decode_fill_pad (prediction_tokens : List ℕ) (length_out pad_word_id : ℕ) :
    List ℕ :=
  List.zipWith (fun p x => if p < length_out then x else pad_word_id)
    (List.range prediction_tokens.length) prediction_tokens

/-- C8: in the decode output, every position at or beyond the decoded
length of the example carries the pad token id, and every position inside the
decoded length carries the argmax-predicted id. -/
theorem decode_fill_pad_contract (pred : List ℕ) (len pad p : ℕ)
    (hp : p < pred.length) :
    (len ≤ p → (decode_fill_pad pred len pad).getD p 0 = pad) ∧
    (p < len → (decode_fill_pad pred len pad).getD p 0 = pred.getD p 0) := by
  have hlen : p < (decode_fill_pad pred len pad).length := by
    simpa [decode_fill_pad] using hp
  rw [show (decode_fill_pad pred len pad).getD p 0 =
      (decode_fill_pad pred len pad)[p] from List.getD_eq_getElem _ _ hlen]
  unfold decode_fill_pad
  rw [List.getElem_zipWith]
  rw [List.getD_eq_getElem _ _ hp]
  simp only [List.getElem_range]
  constructor
  · intro h
    simp [Nat.not_lt.mpr h]
  · intro h
    simp [h]

/-- Closed-form witness for `decode_fill_pad_contract`. -/
theorem decode_fill_pad_contract_witness :
    (2 ≤ 3 → (decode_fill_pad [10, 11, 12, 13] 2 0).getD 3 0 = 0) ∧
    (3 < 2 → (decode_fill_pad [10, 11, 12, 13] 2 0).getD 3 0 =
      ([10, 11, 12, 13] : List ℕ).getD 3 0) :=
  decode_fill_pad_contract [10, 11, 12, 13] 2 0 3 (by decide)

/-- Embeds the decode-mode segment-id construction of `NAT.forward`
(src/model.py:159-164): `source_mask = source_ids != pad_word_id`,
`token_type_ids = zeros_like(source_ids)`, then
`token_type_ids.masked_fill_(~source_mask, 1)` — so positions whose token
id equals the pad id receive segment type 1, the rest keep 0. -/
def decode_token_type_ids (source_ids : List ℕ) (pad_word_id : ℕ) : List ℕ :=
  source_ids.map (fun tok => if tok = pad_word_id then 1 else 0)

/-- C10: in decode mode the segment-type ids for the source block are 0 at
valid (non-pad) source positions but 1 — the target segment type — at
source padding positions. -/
theorem decode_token_type_ids_pad_is_target_type (source_ids : List ℕ)
    (pad p : ℕ) (hp : p < source_ids.length) :
    (source_ids.getD p pad = pad →
      (decode_token_type_ids source_ids pad).getD p 0 = 1) ∧
    (source_ids.getD p pad ≠ pad →
      (decode_token_type_ids source_ids pad).getD p 0 = 0) := by
  have hlen : p < (decode_token_type_ids source_ids pad).length := by
    simpa [decode_token_type_ids] using hp
  rw [show (decode_token_type_ids source_ids pad).getD p 0 =
      (decode_token_type_ids source_ids pad)[p] from List.getD_eq_getElem _ _ hlen]
  unfold decode_token_type_ids
  rw [List.getElem_map]
  rw [List.getD_eq_getElem _ _ hp]
  constructor
  · intro h
    simp [h]
  · intro h
    simp [h]

/-- Closed-form witness for `decode_token_type_ids_pad_is_target_type`:
pad id 0, a source row whose position 2 is padding. -/
theorem decode_token_type_ids_pad_witness :
    (([5, 6, 0] : List ℕ).getD 2 0 = 0 →
      (decode_token_type_ids [5, 6, 0] 0).getD 2 0 = 1) ∧
    (([5, 6, 0] : List ℕ).getD 2 0 ≠ 0 →
      (decode_token_type_ids [5, 6, 0] 0).getD 2 0 = 0) :=
  decode_token_type_ids_pad_is_target_type [5, 6, 0] 0 2 (by decide)

/-- Embeds the per-example GLAT disagreement count of `NAT.forward_glat`
(src/model.py:256): `((prediction_tokens != target_ids) & (target_mask == 1)).sum(-1)`,
the number of target positions where the draft argmax prediction differs
from the ground truth and the validity mask is 1. -/
def glat_disagreement (prediction_tokens target_ids target_mask : List ℕ) : ℕ :=
  (List.range target_ids.length).countP
    (fun p => decide (prediction_tokens.getD p 0 ≠ target_ids.getD p 0) &&
      decide (target_mask.getD p 0 = 1))

/-- Embeds `N = (disagreements * glat_f).long()` (src/model.py:256-257):
float multiplication by `glat_f` followed by truncation toward zero, which
for a nonnegative product is the floor. -/
def glat_N (glat_f : ℚ) (prediction_tokens target_ids target_mask : List ℕ) : ℕ :=
  ⌊(glat_disagreement prediction_tokens target_ids target_mask : ℚ) * glat_f⌋₊

/-- Embeds the scatter assignment `pseudo_ids[i, ind] = target_ids[i, ind]`
(src/model.py:275) at a list `ind` of distinct indices: positions listed in
`ind` take the value of `ys`, the rest keep `xs`. -/
def scatter_assign (xs ys : List ℕ) (ind : List ℕ) : List ℕ :=
  (List.range xs.length).map
    (fun p => if p ∈ ind then ys.getD p 0 else xs.getD p 0)

/-- Embeds the `glat_random_prob`-unset branch of the per-example GLAT
reveal loop (src/model.py:264-275): the random permutation `indices` of the
target positions is restricted to the valid ones
(`indice = indice[indice < target_mask[i].sum()]`), its first `n` entries
are selected, and ground-truth tokens are copied into the pseudo-target
there. -/
def forward_glat_reveal (pseudo_ids target_ids target_mask indices : List ℕ)
    (n : ℕ) : List ℕ :=
  scatter_assign pseudo_ids target_ids
    ((indices.filter (fun p => p < target_mask.sum)).take n)

lemma filter_range_lt (L c : ℕ) (h : c ≤ L) :
    (List.range L).filter (fun x => x < c) = List.range c := by
  induction L with
  | zero =>
    have : c = 0 := by omega
    simp [this]
  | succ m ih =>
    rcases Nat.lt_or_ge c (m + 1) with h1 | h1
    · have hc : c ≤ m := by omega
      rw [List.range_succ, List.filter_append, ih hc]
      have : ¬ m < c := by omega
      simp [this]
    · have hc : c = m + 1 := by omega
      subst hc
      apply List.filter_eq_self.mpr
      intro a ha
      simp only [List.mem_range] at ha
      simpa using ha

lemma mask_sum_eq (c L : ℕ) (h : c ≤ L) :
    (create_mask_and_position_ids c L none).1.sum = c := by
  have h1 : (create_mask_and_position_ids c L none).1 =
      (List.range L).map (fun q => if q < c then 1 else 0) := rfl
  rw [h1]
  have h2 : ∀ M : List ℕ, (M.map (fun q => if q < c then 1 else 0)).sum =
      (M.filter (fun q => q < c)).length := by
    intro M
    induction M with
    | nil => simp
    | cons a t ih =>
      by_cases ha : a < c
      · simp [ha, ih]
        omega
      · simp [ha, ih]
  rw [h2, filter_range_lt L c h, List.length_range]

lemma getD_replicate_nat (n i : ℕ) (x : ℕ) (h : i < n) :
    (List.replicate n x).getD i 0 = x := by
  rw [List.getD_eq_getElem _ _ (by simpa using h)]
  simp

lemma scatter_assign_getD (xs ys ind : List ℕ) (p : ℕ) (hp : p < xs.length) :
    (scatter_assign xs ys ind).getD p 0 =
      if p ∈ ind then ys.getD p 0 else xs.getD p 0 := by
  have hlen : p < (scatter_assign xs ys ind).length := by
    simpa [scatter_assign] using hp
  rw [List.getD_eq_getElem _ _ hlen]
  unfold scatter_assign
  rw [List.getElem_map]
  simp

lemma scatter_assign_length (xs ys ind : List ℕ) :
    (scatter_assign xs ys ind).length = xs.length := by
  simp [scatter_assign]

/-- C3: GLAT glancing sampling with `glat_random_prob` unset, for one
example.  With `target_mask` the validity mask for valid-count `c` out of
`L` target positions, `pseudo_ids` the all-masked pseudo-target, `indices`
a random permutation of the `L` target positions, `0 ≤ glat_f ≤ 1`, and
ground truth never equal to the mask token at valid positions, the reveal
count `N = ⌊glat_f · disagreements⌋` satisfies `N ≤ glat_f · c`, the
mutated pseudo-target differs from the all-masked one in exactly `N`
positions, and every differing position is valid. -/
theorem forward_glat_reveal_bound (glat_f : ℚ) (L c mask_word_id : ℕ)
    (prediction_tokens target_ids indices : List ℕ)
    (hf0 : 0 ≤ glat_f) (hf1 : glat_f ≤ 1) (hc : c ≤ L)
    (htlen : target_ids.length = L)
    (hperm : indices.Perm (List.range L))
    (hne : ∀ p, p < c → target_ids.getD p 0 ≠ mask_word_id) :
    (glat_N glat_f prediction_tokens target_ids
        (create_mask_and_position_ids c L none).1 : ℚ) ≤ glat_f * c ∧
    ((Finset.range L).filter
      (fun p => (forward_glat_reveal (List.replicate L mask_word_id) target_ids
          (create_mask_and_position_ids c L none).1 indices
          (glat_N glat_f prediction_tokens target_ids
            (create_mask_and_position_ids c L none).1)).getD p 0 ≠
        (List.replicate L mask_word_id).getD p 0)).card =
      glat_N glat_f prediction_tokens target_ids
        (create_mask_and_position_ids c L none).1 ∧
    ∀ p, (forward_glat_reveal (List.replicate L mask_word_id) target_ids
        (create_mask_and_position_ids c L none).1 indices
        (glat_N glat_f prediction_tokens target_ids
          (create_mask_and_position_ids c L none).1)).getD p 0 ≠
      (List.replicate L mask_word_id).getD p 0 → p < c := by
  set mask := (create_mask_and_position_ids c L none).1 with hmask
  set d := glat_disagreement prediction_tokens target_ids mask with hd
  set n := glat_N glat_f prediction_tokens target_ids mask with hn
  -- the disagreement count is at most the valid count
  have hd_le : d ≤ c := by
    rw [hd]
    unfold glat_disagreement
    have hmono : ∀ p ∈ List.range target_ids.length,
        (decide (prediction_tokens.getD p 0 ≠ target_ids.getD p 0) &&
          decide (mask.getD p 0 = 1)) = true → decide (p < c) = true := by
      intro p hp hcond
      simp only [Bool.and_eq_true, decide_eq_true_eq] at hcond
      have hpL : p < L := by
        simpa [htlen] using List.mem_range.mp hp
      have := hcond.2
      rw [hmask, getD_fst_create_mask c L none p hpL] at this
      by_cases hpc : p < c
      · simpa using hpc
      · simp [hpc] at this
    calc (List.range target_ids.length).countP
          (fun p => decide (prediction_tokens.getD p 0 ≠ target_ids.getD p 0) &&
            decide (mask.getD p 0 = 1))
        ≤ (List.range target_ids.length).countP (fun p => decide (p < c)) :=
          List.countP_mono_left hmono
      _ = ((List.range target_ids.length).filter (fun p => p < c)).length :=
          List.countP_eq_length_filter _ _
      _ = c := by rw [htlen, filter_range_lt L c hc, List.length_range]
  -- n ≤ d and the rational bound
  have hn_le_d : n ≤ d := by
    rw [hn]
    unfold glat_N
    rw [← hd]
    calc ⌊(d : ℚ) * glat_f⌋₊ ≤ ⌊(d : ℚ) * 1⌋₊ := by
          apply Nat.floor_le_floor
          exact mul_le_mul_of_nonneg_left hf1 (by positivity)
      _ = d := by simp
  have hbound : (n : ℚ) ≤ glat_f * c := by
    rw [hn]
    unfold glat_N
    rw [← hd]
    calc (⌊(d : ℚ) * glat_f⌋₊ : ℚ) ≤ (d : ℚ) * glat_f :=
          Nat.floor_le (by positivity)
      _ ≤ (c : ℚ) * glat_f := by
          apply mul_le_mul_of_nonneg_right _ hf0
          exact_mod_cast hd_le
      _ = glat_f * c := mul_comm _ _
  have hn_le_c : n ≤ c := le_trans hn_le_d hd_le
  -- the filtered permutation is a permutation of range c
  have hsum : mask.sum = c := mask_sum_eq c L hc
  have hfilt_perm : (indices.filter (fun p => p < mask.sum)).Perm (List.range c) := by
    rw [hsum]
    have h1 : (indices.filter (fun p => decide (p < c))).Perm
        ((List.range L).filter (fun p => decide (p < c))) := hperm.filter _
    rwa [filter_range_lt L c hc] at h1
  have hfilt_len : (indices.filter (fun p => p < mask.sum)).length = c := by
    rw [hfilt_perm.length_eq, List.length_range]
  have hfilt_nodup : (indices.filter (fun p => p < mask.sum)).Nodup :=
    hfilt_perm.nodup_iff.mpr (List.nodup_range c)
  have hfilt_mem : ∀ x ∈ indices.filter (fun p => p < mask.sum), x < c := by
    intro x hx
    have := hfilt_perm.mem_iff.mp hx
    simpa using this
  set chosen := (indices.filter (fun p => p < mask.sum)).take n with hchosen
  have hchosen_len : chosen.length = n := by
    rw [hchosen, List.length_take, hfilt_len]
    omega
  have hchosen_nodup : chosen.Nodup :=
    (List.take_sublist n _).nodup hfilt_nodup
  have hchosen_mem : ∀ x ∈ chosen, x < c := by
    intro x hx
    exact hfilt_mem x (List.mem_of_mem_take hx)
  -- the mutated pseudo-target differs from all-mask exactly on `chosen`
  set pseudo := List.replicate L mask_word_id with hpseudo
  have hplen : pseudo.length = L := by simp [hpseudo]
  have hres : forward_glat_reveal pseudo target_ids mask indices n =
      scatter_assign pseudo target_ids chosen := rfl
  have hdiff_iff : ∀ p, p < L →
      ((forward_glat_reveal pseudo target_ids mask indices n).getD p 0 ≠
        pseudo.getD p 0 ↔ p ∈ chosen) := by
    intro p hpL
    rw [hres, scatter_assign_getD pseudo target_ids chosen p (by omega)]
    constructor
    · intro hne2
      by_contra hmem
      simp [hmem] at hne2
    · intro hmem
      have hpc : p < c := hchosen_mem p hmem
      have hpm : pseudo.getD p 0 = mask_word_id := by
        rw [hpseudo]; exact getD_replicate_nat L p mask_word_id hpL
      rw [if_pos hmem, hpm]
      exact hne p hpc
  have hdiff_out : ∀ p, ¬ p < L →
      (forward_glat_reveal pseudo target_ids mask indices n).getD p 0 =
        pseudo.getD p 0 := by
    intro p hpL
    have h1 : (forward_glat_reveal pseudo target_ids mask indices n).length = L := by
      rw [hres, scatter_assign_length, hplen]
    rw [List.getD_eq_default, List.getD_eq_default]
    · omega
    · omega
  refine ⟨hbound, ?_, ?_⟩
  · have hset : (Finset.range L).filter
        (fun p => (forward_glat_reveal pseudo target_ids mask indices n).getD p 0 ≠
          pseudo.getD p 0) = chosen.toFinset := by
      ext p
      simp only [Finset.mem_filter, Finset.mem_range, List.mem_toFinset]
      constructor
      · rintro ⟨hpL, hdp⟩
        exact (hdiff_iff p hpL).mp hdp
      · intro hmem
        have hpc : p < c := hchosen_mem p hmem
        have hpL : p < L := by omega
        exact ⟨hpL, (hdiff_iff p hpL).mpr hmem⟩
    rw [hset, List.toFinset_card_of_nodup hchosen_nodup, hchosen_len]
  · intro p hdp
    by_cases hpL : p < L
    · exact hchosen_mem p ((hdiff_iff p hpL).mp hdp)
    · exact absurd (hdiff_out p hpL) hdp

/-- Closed-form witness for `forward_glat_reveal_bound`:
`glat_f = 1/2`, 4 target positions of which 3 are valid, mask token 103. -/
theorem forward_glat_reveal_bound_witness :
    (glat_N (1/2) [5, 6, 7, 8] [5, 9, 9, 9]
        (create_mask_and_position_ids 3 4 none).1 : ℚ) ≤ (1/2) * 3 ∧
    ((Finset.range 4).filter
      (fun p => (forward_glat_reveal (List.replicate 4 103) [5, 9, 9, 9]
          (create_mask_and_position_ids 3 4 none).1 [2, 0, 3, 1]
          (glat_N (1/2) [5, 6, 7, 8] [5, 9, 9, 9]
            (create_mask_and_position_ids 3 4 none).1)).getD p 0 ≠
        (List.replicate 4 103).getD p 0)).card =
      glat_N (1/2) [5, 6, 7, 8] [5, 9, 9, 9]
        (create_mask_and_position_ids 3 4 none).1 ∧
    ∀ p, (forward_glat_reveal (List.replicate 4 103) [5, 9, 9, 9]
        (create_mask_and_position_ids 3 4 none).1 [2, 0, 3, 1]
        (glat_N (1/2) [5, 6, 7, 8] [5, 9, 9, 9]
          (create_mask_and_position_ids 3 4 none).1)).getD p 0 ≠
      (List.replicate 4 103).getD p 0 → p < 3 :=
  forward_glat_reveal_bound (1/2) 4 3 103 [5, 6, 7, 8] [5, 9, 9, 9]
    [2, 0, 3, 1] (by norm_num) (by norm_num) (by decide) (by decide)
    (by decide) (by decide)

/-- Configuration fields of `NAT.__init__` (src/model.py:67-102) used on
the training path. -/
structure NATConfig where
  use_glat : Bool
  glat_f : ℚ
  mask_word_id : ℕ
  sep_word_id : ℕ
  pad_word_id : ℕ
  source_type_id : ℕ
  target_type_id : ℕ

/-- The trained sub-modules of the model, abstracted as deterministic
functions of the encoder-call inputs (input ids, token type ids, position
ids, attention mask): `bertCls` yields the per-target-position
vocabulary-argmax tokens of `cls(bert(...))` used by the GLAT draft pass
(src/model.py:247-255); `lmLossRows` yields the per-target-position
masked-LM loss row of `crit_mask_lm(cls(bert(...)), target_ids)`
(src/model.py:198-219); `lengthLossOf` yields
`F.cross_entropy(forward_length(bert(...)), length_tgt)` for one example
(src/model.py:201-203). -/
structure NATHeads where
  bertCls : List ℕ → List ℕ → List ℕ → (ℕ → ℕ → ℕ) → List ℕ
  lmLossRows : List ℕ → List ℕ → List ℕ → (ℕ → ℕ → ℕ) → List ℕ → List ℚ
  lengthLossOf : List ℕ → List ℕ → List ℕ → (ℕ → ℕ → ℕ) → ℕ → ℚ

/-- The encoder-call inputs that `NAT.forward` / `NAT.forward_glat`
(src/model.py:180-199 and 227-248) build for one example: concatenated
input ids, token type ids and position ids, plus the source and target
validity masks from which `feed_bert` derives the attention mask. -/
structure BertInputs where
  input_ids : List ℕ
  token_type_ids : List ℕ
  position_ids : List ℕ
  source_mask : List ℕ
  target_mask : List ℕ

/-- Builds the `BertInputs` of one example exactly as the training forward
does: `input_ids = cat(source_ids, pseudo_ids)`,
`token_type_ids = cat(source_type_id…, target_type_id…)`, masks and
position ids from `create_mask_and_position_ids` (target offset by
`num_source_tokens`), `position_ids = cat(source, target)`. -/
def build_bert_inputs (cfg : NATConfig) (source_ids pseudo : List ℕ)
    (num_source_tokens num_target_tokens : ℕ) : BertInputs :=
  let sm := create_mask_and_position_ids num_source_tokens source_ids.length none
  let tm := create_mask_and_position_ids num_target_tokens pseudo.length
    (some num_source_tokens)
  ⟨source_ids ++ pseudo,
   List.replicate source_ids.length cfg.source_type_id ++
     List.replicate pseudo.length cfg.target_type_id,
   sm.2 ++ tm.2, sm.1, tm.1⟩

/-- Embeds `NAT.forward_glat` (src/model.py:226-277) for one example with
`glat_random_prob` unset: one draft encoder pass on the current
pseudo-target yields draft tokens, `N` is derived from the disagreement
count, and `N` ground-truth tokens are revealed along the random
permutation `indices`.  Returns the mutated pseudo-target and `N`. -/
def forward_glat_example (cfg : NATConfig) (heads : NATHeads)
    (source_ids target_ids pseudo_ids indices : List ℕ)
    (num_source_tokens num_target_tokens : ℕ) : List ℕ × ℕ :=
  let bi := build_bert_inputs cfg source_ids pseudo_ids
    num_source_tokens num_target_tokens
  let att := create_attention_mask bi.source_mask bi.target_mask
  let prediction_tokens := heads.bertCls bi.input_ids bi.token_type_ids
    bi.position_ids att
  let n := glat_N cfg.glat_f prediction_tokens target_ids bi.target_mask
  (forward_glat_reveal pseudo_ids target_ids bi.target_mask indices n, n)

/-- Embeds the training path of `NAT.forward` (src/model.py:158-224) over a
batch, with the trained sub-modules abstracted as the deterministic
functions of `NATHeads` and the GLAT randomness passed in as `rng` — one
random position permutation per example, standing for the
`torch.sort(torch.rand(...))` draw at src/model.py:259.  When
`cfg.use_glat` is set the pseudo-targets are first mutated by
`forward_glat_example`; the final pass computes the masked-LM loss rows,
normalizes them with `loss_mask_and_normalize`, and averages the
per-example length losses.  Returns `(pseudo_lm_loss, length_loss)`. -/
def NAT_forward (cfg : NATConfig) (heads : NATHeads) (rng : List (List ℕ))
    (source_ids target_ids pseudo_ids : List (List ℕ))
    (num_source_tokens num_target_tokens : List ℕ) : ℚ × ℚ :=
  let B := source_ids.length
  let pseudo := if cfg.use_glat then
      (List.range B).map (fun b =>
        (forward_glat_example cfg heads (source_ids.getD b [])
          (target_ids.getD b []) (pseudo_ids.getD b []) (rng.getD b [])
          (num_source_tokens.getD b 0) (num_target_tokens.getD b 0)).1)
    else pseudo_ids
  let lm_rows := (List.range B).map (fun b =>
    let bi := build_bert_inputs cfg (source_ids.getD b []) (pseudo.getD b [])
      (num_source_tokens.getD b 0) (num_target_tokens.getD b 0)
    heads.lmLossRows bi.input_ids bi.token_type_ids bi.position_ids
      (create_attention_mask bi.source_mask bi.target_mask) (target_ids.getD b []))
  let target_masks := (List.range B).map (fun b =>
    (build_bert_inputs cfg (source_ids.getD b []) (pseudo.getD b [])
      (num_source_tokens.getD b 0) (num_target_tokens.getD b 0)).target_mask)
  let token_loss := loss_mask_and_normalize lm_rows
    (target_masks.map (fun r => r.map (fun x => (x : ℚ))))
  let length_losses := (List.range B).map (fun b =>
    let bi := build_bert_inputs cfg (source_ids.getD b []) (pseudo.getD b [])
      (num_source_tokens.getD b 0) (num_target_tokens.getD b 0)
    heads.lengthLossOf bi.input_ids bi.token_type_ids bi.position_ids
      (create_attention_mask bi.source_mask bi.target_mask) bi.target_mask.sum)
  (token_loss, length_losses.sum / (B : ℚ))

/-- C9: with GLAT disabled, the training forward pass is deterministic —
the result does not depend on the random draw `rng`, so two calls with
identical inputs and identical (deterministic) trained components return
identical token and length losses. -/
theorem NAT_forward_deterministic_without_glat (cfg : NATConfig)
    (heads : NATHeads) (rng1 rng2 : List (List ℕ))
    (source_ids target_ids pseudo_ids : List (List ℕ))
    (num_source_tokens num_target_tokens : List ℕ)
    (h : cfg.use_glat = false) :
    NAT_forward cfg heads rng1 source_ids target_ids pseudo_ids
        num_source_tokens num_target_tokens =
      NAT_forward cfg heads rng2 source_ids target_ids pseudo_ids
        num_source_tokens num_target_tokens := by
  unfold NAT_forward
  rw [h]
  simp

/-- Closed-form witness for `NAT_forward_deterministic_without_glat`:
a one-example batch with two different random draws. -/
theorem NAT_forward_deterministic_witness :
    NAT_forward ⟨false, 1/2, 103, 102, 0, 0, 1⟩
        ⟨fun _ _ _ _ => [7, 7], fun _ _ _ _ _ => [1, 1], fun _ _ _ _ _ => 2⟩
        [[1, 0]] [[11, 12]] [[21, 22]] [[103, 103]] [2] [2] =
      NAT_forward ⟨false, 1/2, 103, 102, 0, 0, 1⟩
        ⟨fun _ _ _ _ => [7, 7], fun _ _ _ _ _ => [1, 1], fun _ _ _ _ _ => 2⟩
        [[0, 1]] [[11, 12]] [[21, 22]] [[103, 103]] [2] [2] :=
  NAT_forward_deterministic_without_glat ⟨false, 1/2, 103, 102, 0, 0, 1⟩
    ⟨fun _ _ _ _ => [7, 7], fun _ _ _ _ _ => [1, 1], fun _ _ _ _ _ => 2⟩
    [[1, 0]] [[0, 1]] [[11, 12]] [[21, 22]] [[103, 103]] [2] [2] rfl

end NATModel
